import Mathlib

/-!
Verification development for the guess-back session-management core.

The definitions below are a shallow embedding of the JavaScript source:
  * `src/utils/wordUtils.js`  — letter tree lookup (`getNextTierCombos`)
  * `src/socket/gameSocket.js` — word validation (`isValidWord`), letter
    escalation (`incrementLetters`, `distributeLetters`), the match session
    record and its socket event handlers (connection, move, written,
    disconnect, the elapsed-time interval, the reconnection timeout), and
    `endGame`.
  * `src/unnamed/part_000` — the lobby `set_game_settings` handler.

Conventions of the embedding:
  * JavaScript strings are Lean `String`; `toLowerCase` is modelled for the
    ASCII range used by the game (`lowerChar`/`lowerStr`).
  * JavaScript `Map`s (insertion ordered) are association lists; `Set`s are
    duplicate-free lists (insert-if-absent).
  * `Math.floor(Math.random() * len)` produces an arbitrary valid index;
    it is modelled by an oracle `Nat` reduced modulo the list length, so
    every definition is executable and every random outcome is reachable
    by a suitable oracle.
  * Timers (`setInterval`/`setTimeout`) are modelled as events that may
    fire while armed; `clearInterval`/`clearTimeout` disarm them.
  * Database writes (`Game.findByIdAndUpdate`, `newGame.save`) only log on
    failure and never change in-memory session state; they are omitted.
  * Times (`Date.now()`) are `Nat` milliseconds supplied with each event.
-/

namespace GuessBack

/-- ASCII lower-casing of one character, as `String.prototype.toLowerCase`
acts on the letter inputs of this program. -/
def lowerChar (c : Char) : Char :=
  if 65 ≤ c.toNat ∧ c.toNat ≤ 90 then Char.ofNat (c.toNat + 32) else c

/-- ASCII lower-casing of a string (`word.toLowerCase()`). -/
def lowerStr (s : String) : String := ⟨s.data.map lowerChar⟩

/-- One character of the regex class `[a-zA-Z]`. -/
def isAlphaCh (c : Char) : Bool :=
  (97 ≤ c.toNat && c.toNat ≤ 122) || (65 ≤ c.toNat && c.toNat ≤ 90)

/-- The regex test `/^[a-zA-Z]+$/.test(s)`: nonempty and all letters. -/
def allAlpha (s : String) : Bool := !s.isEmpty && s.data.all isAlphaCh

/-- The letter tree of `letters.json`: a JSON object mapping single letters
to child objects.  The association list keeps the JSON key order, as
`Object.keys` does for non-numeric keys. -/
inductive LTree where
  | node : List (Char × LTree) → LTree

/-- Children of a node, in key order (`Object.keys(currentNode)`). -/
def nodeKeys : LTree → List Char
  | .node cs => cs.map (fun p => p.1)

/-- `currentNode.hasOwnProperty(letter)` / `currentNode[letter]`. -/
def findChild (cs : List (Char × LTree)) (c : Char) : Option LTree :=
  match cs with
  | [] => none
  | (a, t) :: rest => if a = c then some t else findChild rest c

/-- The letter-by-letter walk of `getNextTierCombos`: `none` when some
letter is absent from the tree. -/
def walk : List Char → LTree → Option LTree
  | [], t => some t
  | c :: rest, .node cs => (findChild cs c).bind (walk rest)

/-- `getNextTierCombos(tree, letters)` from `src/utils/wordUtils.js`
(lines 59-73).  The `tree` argument here is the `tree.root` node.  For the
sentinel `"root"` it returns the root's keys; otherwise it walks the tree
letter by letter — with no lower-casing of `letters` — returning `[]` when
a letter is missing, and otherwise each child key appended to `letters`. -/
def getNextTierCombos (tree : LTree) (letters : String) : List String :=
  if letters == "root" then (nodeKeys tree).map (fun c => String.mk [c])
  else
    match walk letters.data tree with
    | none => []
    | some t => (nodeKeys t).map (fun c => letters.push c)

/-- `combos[Math.floor(Math.random() * combos.length)]` with the random
draw supplied as the oracle `i`.  An empty list yields `""`, standing for
the `undefined` a JavaScript out-of-range index produces. -/
def pickStr (l : List String) (i : Nat) : String := l.getD (i % l.length) ""

/-- `incrementLetters(letters)` from `src/socket/gameSocket.js`
(lines 703-712): lower-case the letters, look up the next-tier
combinations, return the input unchanged when there are none, otherwise a
randomly chosen combination. -/
def incrementLetters (tree : LTree) (i : Nat) (letters : String) : String :=
  let lowerLetters := lowerStr letters
  let possibleCombos := getNextTierCombos tree lowerLetters
  if possibleCombos.isEmpty then letters else pickStr possibleCombos i

/-- Result record of `isValidWord`. -/
structure VResult where
  valid : Bool
  reason : String
deriving DecidableEq

/-- `isValidWord(word, letters, usedWords)` from `src/socket/gameSocket.js`
(lines 680-701).  The dictionary is the set of lower-cased lines of
`words.txt`, modelled as a list.  Note the used-words check compares the
lower-cased submission against the stored entries as they are. -/
def isValidWord (dict : List String) (word letters : String)
    (usedWords : List String) : VResult :=
  if word.isEmpty || letters.isEmpty then
    ⟨false, "Word and letters are required!"⟩
  else if !(allAlpha word && allAlpha letters) then
    ⟨false, "Word and letters must be strings and only contain letters"⟩
  else
    let lowerWord := lowerStr word
    let lowerLetters := lowerStr letters
    if !(dict.contains lowerWord) then
      ⟨false, word ++ " is not a word!"⟩
    else if usedWords.contains lowerWord then
      ⟨false, word ++ " has already been used!"⟩
    else
      match lowerLetters.data.find? (fun c => !(lowerWord.data.contains c)) with
      | some c => ⟨false, word ++ " doesnt contain the letter: " ++ String.mk [c] ++ "!"⟩
      | none => ⟨true, ""⟩

/-- A small concrete letter tree used by the scenario theorems:
`{root: {a: {b: {c: {}}}}}`. -/
def tree1 : LTree :=
  .node [(Char.ofNat 97, .node [(Char.ofNat 98, .node [(Char.ofNat 99, .node [])])])]

/-- A small concrete dictionary used by the scenario theorems. -/
def dict1 : List String := ["aa", "ab", "cat"]

/-- `src/types/gameState.js` freezes `{NOT_STARTED, IN_PROGRESS, COMPLETED,
ABANDONED}`.  The disconnect handler assigns `GameState.PAUSED`, a key the
frozen object does not have, so the stored value is `undefined`; since
`undefined` is distinct from every named state and every comparison in the
code is `===`/`!==`, it behaves exactly as one further state, modelled here
as `paused`. -/
inductive GState where
  | notStarted
  | inProgress
  | paused
  | completed
  | abandoned
deriving DecidableEq

/-- The per-player record created by `createGame`
(`src/socket/gameSocket.js` lines 570-578). -/
structure PlayerData where
  points : Nat
  letters : String
  written : String
  words : List String
  username : String
  letterIncreases : Nat
  isPlaying : Bool
deriving DecidableEq

/-- The in-memory game record stored in the `games` map
(`src/socket/gameSocket.js` lines 554-564).  `gameCode` bookkeeping is
omitted: no handler modelled here reads it except the teardown deletion,
which touches no other state. -/
structure GameS where
  players : List String
  state : GState
  playerData : List (String × PlayerData)
  elapsedTime : Nat
  startTime : Nat
  gameDuration : Nat
  letterAddFrequency : Nat
  victoryThreshold : Nat
deriving DecidableEq

/-- Events the handlers emit to the room (`gameNamespace.to(gameId).emit`).
`gameEnded` carries the winner and the per-player points of the
`game_ended` payload; usernames in the payload come from external identity
resolution and are not modelled. -/
inductive OutEv where
  | gameStarted
  | gameState
  | validMove (p : String)
  | invalidMove (p : String) (reason : String)
  | gamePaused (p : String)
  | gameResumed (reason : String) (p : String)
  | gameEnded (winner : Option String) (scores : List (String × Nat)) (elapsed : Nat)
deriving DecidableEq

/-- One match session together with the process-wide bookkeeping that is
keyed by its id: the `connectedPlayers` set, the `pendingPlayers` map (the
ids with an armed reconnection timeout), whether `gameTimers` holds an
armed elapsed-time interval, and whether the delayed start callback
(`setTimeout(..., GAME_START_DELAY)`) is scheduled.  `emitted` accumulates
the events broadcast so far. -/
structure Session where
  game : GameS
  connected : List String
  pending : List String
  timerOn : Bool
  startPending : Bool
  emitted : List OutEv
deriving DecidableEq

/-- `game.playerData.get(uid)`. -/
def pdLookup (l : List (String × PlayerData)) (k : String) : Option PlayerData :=
  match l with
  | [] => none
  | (a, b) :: rest => if a = k then some b else pdLookup rest k

/-- In-place mutation of the record stored under key `k`
(`game.playerData.get(uid).field = ...`). -/
def pdUpdate : List (String × PlayerData) → String → (PlayerData → PlayerData) →
    List (String × PlayerData)
  | [], _, _ => []
  | (p, d) :: rest, k, f =>
    (p, if p = k then f d else d) :: pdUpdate rest k f

/-- A mutation applied to every stored record
(`game.playerData.forEach(...)`). -/
def mapVals (f : PlayerData → PlayerData) :
    List (String × PlayerData) → List (String × PlayerData)
  | [] => []
  | (p, d) :: rest => (p, f d) :: mapVals f rest

/-- The escalation loop of the move handler (lines 418-422), from entry
index `i`: every player other than the submitter gets `incrementLetters`
applied, each with its own random draw (oracle indexed by position in the
map). -/
def escalateFrom (tree : LTree) (uid : String) (choices : List Nat) :
    Nat → List (String × PlayerData) → List (String × PlayerData)
  | _, [] => []
  | i, (p, d) :: rest =>
    (p, if p = uid then d
        else { d with letters := incrementLetters tree (choices.getD i 0) d.letters })
      :: escalateFrom tree uid choices (i + 1) rest

/-- The escalation loop over the whole player map. -/
def escalate (tree : LTree) (uid : String) (choices : List Nat)
    (l : List (String × PlayerData)) : List (String × PlayerData) :=
  escalateFrom tree uid choices 0 l

/-- `distributeLetters(gameState)` (lines 661-670): every player is given a
random first-tier combination (`getNextTierCombos(tree, "root")`).  An
empty root would store `undefined`, modelled as `""` — observably the same,
since both make every later `move` fail the `!letters` check. -/
def distributeLetters (tree : LTree) (choices : List Nat)
    (l : List (String × PlayerData)) : List (String × PlayerData) :=
  l.enum.map (fun q =>
    (q.2.1, { q.2.2 with letters := pickStr (getNextTierCombos tree "root") (choices.getD q.1 0) }))

/-- The winner fold of `endGame` (lines 615-623): `highestScore` starts at
`-1` and a strictly greater score takes over, so the first player reaching
the maximum wins, and a 0-point player already beats the initial `-1`. -/
def winnerAux : Option String → Int → List (String × PlayerData) → Option String
  | w, _, [] => w
  | w, h, (p, d) :: rest =>
    if (d.points : Int) > h then winnerAux (some p) (d.points : Int) rest
    else winnerAux w h rest

/-- The winner selected by `endGame`. -/
def winnerOf (l : List (String × PlayerData)) : Option String :=
  winnerAux none (-1) l

/-- The `scores` of the `game_ended` payload, restricted to points. -/
def scoresOf (l : List (String × PlayerData)) : List (String × Nat) :=
  l.map (fun p => (p.1, p.2.points))

/-- `endGame(gameId, namespace)` (lines 610-654): set the state to
`COMPLETED`, pick the winner, deactivate every player, emit `game_ended`.
The database update is fire-and-forget and does not touch the session.
`endGame` clears neither timers nor `pendingPlayers`. -/
def endGameStep (s : Session) : Session :=
  let g := s.game
  { s with
      game := { g with
                  state := .completed,
                  playerData := mapVals (fun d => { d with isPlaying := false }) g.playerData },
      emitted := s.emitted ++ [.gameEnded (winnerOf g.playerData) (scoresOf g.playerData) g.elapsedTime] }

/-- The connection handler (lines 316-397).  The player is added to the
connected set; a player with an armed reconnection timeout resumes the
game unconditionally (the state becomes `IN_PROGRESS` whatever it was);
otherwise, when the connected set first covers all participants, the game
starts: `IN_PROGRESS`, start timestamp, fresh elapsed-time interval, all
players active, and the delayed start callback scheduled. -/
def connectStep (s : Session) (uid : String) (now : Nat) : Session :=
  let conn := if uid ∈ s.connected then s.connected else s.connected ++ [uid]
  let s1 := { s with connected := conn }
  if uid ∈ s1.pending then
    { s1 with
        pending := s1.pending.erase uid,
        game := { s1.game with state := .inProgress },
        emitted := s1.emitted ++ [.gameResumed "player_reconnected" uid] }
  else if conn.length == s1.game.players.length then
    { s1 with
        game := { s1.game with
                    state := .inProgress,
                    startTime := now,
                    elapsedTime := 0,
                    playerData := mapVals (fun d => { d with isPlaying := true }) s1.game.playerData },
        timerOn := true,
        startPending := true }
  else s1

/-- The delayed start callback (lines 382-391): distribute initial letters
and emit `game_started` plus a state snapshot.  It runs `GAME_START_DELAY`
after the start regardless of what happened meanwhile. -/
def startFireStep (tree : LTree) (s : Session) (choices : List Nat) : Session :=
  if s.startPending then
    { s with
        startPending := false,
        game := { s.game with playerData := distributeLetters tree choices s.game.playerData },
        emitted := s.emitted ++ [.gameStarted, .gameState] }
  else s

/-- The disconnect handler (lines 441-484): remove the player from the
connected set; if the game is `IN_PROGRESS` and somebody is still
connected, pause, emit `game_paused` and arm a reconnection timeout for the
leaver; if nobody is connected and no reconnection is pending, disarm the
elapsed-time interval (and release the game code, not modelled). -/
def disconnectStep (s : Session) (uid : String) : Session :=
  let conn := s.connected.erase uid
  let s1 := { s with connected := conn }
  let s2 :=
    if s1.game.state = .inProgress ∧ conn.length > 0 then
      { s1 with
          game := { s1.game with state := .paused },
          pending := if uid ∈ s1.pending then s1.pending else s1.pending ++ [uid],
          emitted := s1.emitted ++ [.gamePaused uid] }
    else s1
  if s2.connected.length == 0 && s2.pending.isEmpty then
    { s2 with timerOn := false }
  else s2

/-- The reconnection timeout callback (lines 454-467), firing only while
armed (a reconnect clears it): the state becomes `IN_PROGRESS` whatever it
was, the leaver is permanently deactivated, and a snapshot plus
`game_resumed(player_left)` are emitted. -/
def pendingTimeoutStep (s : Session) (uid : String) : Session :=
  if uid ∈ s.pending then
    { s with
        game := { s.game with
                    state := .inProgress,
                    playerData := pdUpdate s.game.playerData uid (fun d => { d with isPlaying := false }) },
        pending := s.pending.erase uid,
        emitted := s.emitted ++ [.gameState, .gameResumed "player_left" uid] }
  else s

/-- One tick of the elapsed-time interval (lines 359-376), firing only
while armed.  When the game is not `IN_PROGRESS` nothing changes (the
callback only logs); otherwise `elapsedTime` is recomputed from the
original `startTime` and, once `elapsedTime >= gameDuration / 1000` (a
comparison of an integer with an exact quotient, i.e.
`1000 * elapsedTime >= gameDuration`), the game ends and the interval is
cleared. -/
def tickStep (s : Session) (now : Nat) : Session :=
  if !s.timerOn then s
  else if s.game.state ≠ .inProgress then s
  else
    let e := (now - s.game.startTime) / 1000
    let g := { s.game with elapsedTime := e }
    if 1000 * e ≥ g.gameDuration then
      let s1 := endGameStep { s with game := g }
      { s1 with timerOn := false }
    else { s with game := g }

/-- The `move` handler (lines 399-428).  A handler exists only for a
connected socket, and a submitter without a `playerData` entry would crash
the handler (`.letters` of `undefined`), so both are guards here.  A valid
word pre-increments the submitter's points; reaching a positive victory
threshold ends the game at once (skipping the word append); otherwise,
points strictly above `letterAddFrequency * (letterIncreases + 1)` bump
the submitter's own counter and escalate every other player's letters; the
raw submitted word — not its lower-cased form — is then appended. -/
def moveStep (dict : List String) (tree : LTree) (s : Session)
    (uid word : String) (choices : List Nat) : Session :=
  if uid ∉ s.connected then s
  else
    match pdLookup s.game.playerData uid with
    | none => s
    | some pd =>
      let r := isValidWord dict word pd.letters pd.words
      if r.valid = false then
        { s with emitted := s.emitted ++ [.invalidMove uid r.reason] }
      else
        let currentPoints := pd.points + 1
        let g1 := { s.game with
                      playerData := pdUpdate s.game.playerData uid
                        (fun d => { d with points := currentPoints }) }
        let s1 := { s with game := g1 }
        if s.game.victoryThreshold > 0 ∧ currentPoints ≥ s.game.victoryThreshold then
          endGameStep s1
        else
          let g2 :=
            if currentPoints > s.game.letterAddFrequency * (pd.letterIncreases + 1)
                ∧ s.game.letterAddFrequency > 0 then
              { g1 with
                  playerData := escalate tree uid choices
                    (pdUpdate g1.playerData uid
                      (fun d => { d with letterIncreases := pd.letterIncreases + 1 })) }
            else g1
          let g3 := { g2 with
                        playerData := pdUpdate g2.playerData uid
                          (fun d => { d with words := d.words ++ [word] }) }
          { s1 with game := g3, emitted := s.emitted ++ [.validMove uid] }

/-- The `written` handler (lines 430-439): store the draft text and emit a
snapshot. -/
def writtenStep (s : Session) (uid text : String) : Session :=
  if uid ∉ s.connected then s
  else
    { s with
        game := { s.game with
                    playerData := pdUpdate s.game.playerData uid (fun d => { d with written := text }) },
        emitted := s.emitted ++ [.gameState] }

/-- The externally triggered events of one session.  `now` values are the
`Date.now()` readings at the moment the handler runs; oracles stand for
the `Math.random()` draws. -/
inductive Ev where
  | connect (uid : String) (now : Nat)
  | disconnect (uid : String)
  | startFire (choices : List Nat)
  | move (uid word : String) (choices : List Nat)
  | written (uid text : String)
  | tick (now : Nat)
  | pendingTimeout (uid : String)

/-- Dispatch one event to its handler. -/
def stepEv (dict : List String) (tree : LTree) (s : Session) : Ev → Session
  | .connect uid now => connectStep s uid now
  | .disconnect uid => disconnectStep s uid
  | .startFire choices => startFireStep tree s choices
  | .move uid word choices => moveStep dict tree s uid word choices
  | .written uid text => writtenStep s uid text
  | .tick now => tickStep s now
  | .pendingTimeout uid => pendingTimeoutStep s uid

/-- Run a sequence of events. -/
def runEvents (dict : List String) (tree : LTree) (s : Session) :
    List Ev → Session
  | [] => s
  | e :: es => runEvents dict tree (stepEv dict tree s e) es

/-- The prefix states of a run, including the initial one. -/
def statesAlong (dict : List String) (tree : LTree) (s : Session) :
    List Ev → List Session
  | [] => [s]
  | e :: es => s :: statesAlong dict tree (stepEv dict tree s e) es

/-- A fresh `playerData` entry (`createGame`, lines 570-578); the username
comes from external identity resolution. -/
def initPlayerData (uname : String) : PlayerData :=
  { points := 0, letters := "", written := "", words := [],
    username := uname, letterIncreases := 0, isPlaying := false }

/-- The in-memory session `createGame` registers (lines 554-579), after
its settings validation passed: state `NOT_STARTED`, one zeroed
`playerData` entry per participant, nobody connected, no timers. -/
def mkSession (playerIds : List String) (uname : String → String)
    (gd laf vt : Nat) : Session :=
  { game := { players := playerIds,
              state := .notStarted,
              playerData := playerIds.map (fun p => (p, initPlayerData (uname p))),
              elapsedTime := 0,
              startTime := 0,
              gameDuration := gd,
              letterAddFrequency := laf,
              victoryThreshold := vt },
    connected := [], pending := [], timerOn := false, startPending := false,
    emitted := [] }

/-- The current letters of a player, `""` when absent. -/
def lettersOf (s : Session) (p : String) : String :=
  ((pdLookup s.game.playerData p).map PlayerData.letters).getD ""

/-- Adjacent differing pairs of a list: how many times a value changed
along a trace. -/
def countChanges : List String → Nat
  | [] => 0
  | [_] => 0
  | a :: b :: rest => (if a = b then 0 else 1) + countChanges (b :: rest)

/-! ### The lobby `set_game_settings` handler (`src/unnamed/part_000`) -/

/-- The `data.gameSettings` message: each numeric field may be absent
(`undefined`). -/
structure GameSettingsMsg where
  gameDuration : Option Int
  letterAddFrequency : Option Int
  victoryThreshold : Option Int
deriving DecidableEq

/-- JavaScript truthiness of an optional numeric field: `undefined` and
`0` are falsy, every other number is truthy. -/
def truthyI : Option Int → Bool
  | none => false
  | some n => n != 0

/-- The numeric value a comparison sees (only consulted when truthy). -/
def ovalI : Option Int → Int
  | none => 0
  | some n => n

/-- The guard pattern `gameSettings.f && (gameSettings.f < lo ||
gameSettings.f > hi)` of the handler (lines 221-231). -/
def fieldBad (o : Option Int) (lo hi : Int) : Bool :=
  truthyI o && (ovalI o < lo || hi < ovalI o)

/-- The slice of a lobby the settings handler touches: its admin and its
stored `gameSettings` object (`create_lobby` initialises the latter to the
defaults, lines 85-89). -/
structure Lobby where
  adminId : String
  gameSettings : GameSettingsMsg
deriving DecidableEq

/-- Outcome of `set_game_settings`: the event emitted back to the caller. -/
inductive SettingsResult where
  | notAdmin
  | invalid (reason : String)
  | ok
deriving DecidableEq

/-- The `set_game_settings` handler of `src/unnamed/part_000`
(lines 194-238), from the admin check on; the code-syntax and
lobby-lookup failures precede it and also leave the lobby untouched.
On success the whole stored settings object is replaced by the message. -/
def setGameSettings (L : Lobby) (playerId : String)
    (msg : Option GameSettingsMsg) : SettingsResult × Lobby :=
  if playerId ≠ L.adminId then (.notAdmin, L)
  else
    match msg with
    | none => (.invalid "Invalid game settings object", L)
    | some gs =>
      if fieldBad gs.gameDuration 10000 3600000 then
        (.invalid "gameDuration must be between 10 seconds and 60 minutes", L)
      else if fieldBad gs.letterAddFrequency 0 999 then
        (.invalid "letterAddFrequency must be between 0 and 999", L)
      else if fieldBad gs.victoryThreshold 0 999 then
        (.invalid "victoryThreshold must be between 0 and 999", L)
      else (.ok, { L with gameSettings := gs })

/-- The defaults `create_lobby` stores (lines 85-89). -/
def defaultSettings : GameSettingsMsg := ⟨some 120000, some 10, some 100⟩

/-! ### Helper lemmas about the player map -/

theorem pdLookup_mapVals (f : PlayerData → PlayerData)
    (l : List (String × PlayerData)) (k : String) :
    pdLookup (mapVals f l) k = (pdLookup l k).map f := by
  induction l with
  | nil => rfl
  | cons a t ih =>
    obtain ⟨p, d⟩ := a
    by_cases hp : p = k
    · subst hp
      simp [mapVals, pdLookup]
    · simp [mapVals, pdLookup, hp, ih]

theorem pdLookup_update_self (l : List (String × PlayerData)) (k : String)
    (f : PlayerData → PlayerData) :
    pdLookup (pdUpdate l k f) k = (pdLookup l k).map f := by
  induction l with
  | nil => rfl
  | cons a t ih =>
    obtain ⟨p, d⟩ := a
    by_cases hp : p = k
    · subst hp
      simp [pdUpdate, pdLookup]
    · simp [pdUpdate, pdLookup, hp, ih]

theorem pdLookup_update_ne (l : List (String × PlayerData)) (k k' : String)
    (f : PlayerData → PlayerData) (h : k' ≠ k) :
    pdLookup (pdUpdate l k f) k' = pdLookup l k' := by
  induction l with
  | nil => rfl
  | cons a t ih =>
    obtain ⟨p, d⟩ := a
    by_cases hp : p = k
    · subst hp
      have hp' : ¬(p = k') := fun hk => h hk.symm
      simp [pdUpdate, pdLookup, hp', ih]
    · by_cases hp' : p = k'
      · subst hp'
        simp [pdUpdate, pdLookup, hp]
      · simp [pdUpdate, pdLookup, hp, hp', ih]

/-- A projection that an update preserves is preserved through `pdUpdate`
at any key. -/
theorem pdLookup_update_proj {α : Type} (g : PlayerData → α)
    (l : List (String × PlayerData)) (k k' : String)
    (f : PlayerData → PlayerData) (hf : ∀ d, g (f d) = g d) :
    (pdLookup (pdUpdate l k f) k').map g = (pdLookup l k').map g := by
  by_cases hk : k' = k
  · subst hk
    rw [pdLookup_update_self]
    cases pdLookup l k' with
    | none => rfl
    | some d => simp [hf]
  · rw [pdLookup_update_ne _ _ _ _ hk]

/-- A projection that the body preserves is preserved through `mapVals`. -/
theorem pdLookup_mapVals_proj {α : Type} (g : PlayerData → α)
    (l : List (String × PlayerData)) (k : String)
    (f : PlayerData → PlayerData) (hf : ∀ d, g (f d) = g d) :
    (pdLookup (mapVals f l) k).map g = (pdLookup l k).map g := by
  rw [pdLookup_mapVals]
  cases pdLookup l k with
  | none => rfl
  | some d => simp [hf]

/-- Escalation leaves the submitter's entry untouched. -/
theorem pdLookup_escalateFrom_self (tree : LTree) (uid : String)
    (cs : List Nat) (i : Nat) (l : List (String × PlayerData)) :
    pdLookup (escalateFrom tree uid cs i l) uid = pdLookup l uid := by
  induction l generalizing i with
  | nil => rfl
  | cons a t ih =>
    obtain ⟨p, d⟩ := a
    by_cases hp : p = uid
    · subst hp
      simp [escalateFrom, pdLookup]
    · simp [escalateFrom, pdLookup, hp, ih]

/-- Escalation only rewrites `letters`: any projection that ignores
`letters` passes through it, at every key. -/
theorem pdLookup_escalateFrom_proj {α : Type} (g : PlayerData → α)
    (tree : LTree) (uid : String) (cs : List Nat) (i : Nat)
    (l : List (String × PlayerData)) (k : String)
    (hg : ∀ d x, g { d with letters := x } = g d) :
    (pdLookup (escalateFrom tree uid cs i l) k).map g = (pdLookup l k).map g := by
  induction l generalizing i with
  | nil => rfl
  | cons a t ih =>
    obtain ⟨p, d⟩ := a
    by_cases hp : p = uid
    · subst hp
      by_cases hk : p = k
      · subst hk
        simp [escalateFrom, pdLookup]
      · simp [escalateFrom, pdLookup, hk, ih]
    · by_cases hk : p = k
      · subst hk
        simp [escalateFrom, pdLookup, hp, hg]
      · simp [escalateFrom, pdLookup, hp, hk, ih]

theorem pdLookup_some_mem (l : List (String × PlayerData)) (k : String)
    (v : PlayerData) (h : pdLookup l k = some v) : (k, v) ∈ l := by
  induction l with
  | nil => simp [pdLookup] at h
  | cons a t ih =>
    obtain ⟨p, d⟩ := a
    by_cases hp : p = k
    · subst hp
      rw [pdLookup, if_pos rfl] at h
      cases h
      exact List.mem_cons_self _ _
    · rw [pdLookup, if_neg hp] at h
      exact List.mem_cons_of_mem _ (ih h)

/-- Every entry of `pdUpdate l k f` is an entry of `l`, transformed when
its key is `k`. -/
theorem mem_pdUpdate (l : List (String × PlayerData)) (k : String)
    (f : PlayerData → PlayerData) (e : String × PlayerData)
    (h : e ∈ pdUpdate l k f) :
    ∃ e0 ∈ l, e = if e0.1 = k then (e0.1, f e0.2) else e0 := by
  induction l with
  | nil => simp [pdUpdate] at h
  | cons a t ih =>
    obtain ⟨p, d⟩ := a
    rw [pdUpdate] at h
    rcases List.mem_cons.mp h with h0 | h0
    · refine ⟨(p, d), List.mem_cons_self _ _, ?_⟩
      rw [h0]
      by_cases hpk : p = k
      · simp [hpk]
      · simp [hpk]
    · obtain ⟨e0, he0, heq⟩ := ih h0
      exact ⟨e0, List.mem_cons_of_mem _ he0, heq⟩

/-! ### Helper lemmas about the winner fold of `endGame` -/

theorem winnerAux_stable (l : List (String × PlayerData)) (w : Option String)
    (h : Int) (hb : ∀ e ∈ l, (e.2.points : Int) ≤ h) : winnerAux w h l = w := by
  induction l generalizing w h with
  | nil => rfl
  | cons a t ih =>
    obtain ⟨p, d⟩ := a
    have h1 : (d.points : Int) ≤ h := hb (p, d) (List.mem_cons_self _ _)
    have h2 : ¬((d.points : Int) > h) := by omega
    simp only [winnerAux, if_neg h2]
    exact ih w h (fun e he => hb e (List.mem_cons_of_mem _ he))

/-- When exactly the entries keyed `A` hold 1 point and every other entry
holds 0, the `endGame` fold selects `A` (starting below 1). -/
theorem winnerAux_uniqueMax (A : String) (l : List (String × PlayerData))
    (w : Option String) (h : Int) (hh : h < 1)
    (hent : ∀ e ∈ l, (e.1 = A → e.2.points = 1) ∧ (e.1 ≠ A → e.2.points = 0))
    (hex : ∃ d, (A, d) ∈ l) : winnerAux w h l = some A := by
  induction l generalizing w h with
  | nil =>
    obtain ⟨d, hd⟩ := hex
    simp at hd
  | cons a t ih =>
    obtain ⟨p, d⟩ := a
    have hhead := hent (p, d) (List.mem_cons_self _ _)
    have hent' : ∀ e ∈ t, (e.1 = A → e.2.points = 1) ∧ (e.1 ≠ A → e.2.points = 0) :=
      fun e he => hent e (List.mem_cons_of_mem _ he)
    by_cases hp : p = A
    · have hpts : d.points = 1 := hhead.1 hp
      have hgt : (d.points : Int) > h := by omega
      simp only [winnerAux, if_pos hgt]
      rw [hp]
      apply winnerAux_stable
      intro e he
      have h2 : e.2.points ≤ 1 := by
        rcases hent' e he with ⟨g1, g2⟩
        by_cases he1 : e.1 = A
        · exact le_of_eq (g1 he1)
        · rw [g2 he1]
          omega
      omega
    · have hpts : d.points = 0 := hhead.2 hp
      have hex' : ∃ d0, (A, d0) ∈ t := by
        obtain ⟨d0, hd0⟩ := hex
        rcases List.mem_cons.mp hd0 with h0 | h0
        · exact absurd (congrArg Prod.fst h0).symm hp
        · exact ⟨d0, h0⟩
      simp only [winnerAux]
      by_cases hgt : (d.points : Int) > h
      · rw [if_pos hgt]
        exact ih _ _ (by omega) hent' hex'
      · rw [if_neg hgt]
        exact ih w h hh hent' hex'

/-! ### Which states each handler can produce -/

theorem connectStep_state (s : Session) (uid : String) (now : Nat) :
    (connectStep s uid now).game.state = s.game.state ∨
      (connectStep s uid now).game.state = .inProgress := by
  simp only [connectStep]
  split_ifs <;> simp

theorem disconnectStep_state (s : Session) (uid : String) :
    (disconnectStep s uid).game.state = s.game.state ∨
      ((disconnectStep s uid).game.state = .paused ∧ s.game.state = .inProgress) := by
  simp only [disconnectStep]
  by_cases h1 : s.game.state = .inProgress ∧ (s.connected.erase uid).length > 0
  · rw [if_pos h1]
    split_ifs <;> exact Or.inr ⟨rfl, h1.1⟩
  · rw [if_neg h1]
    split_ifs <;> exact Or.inl rfl

theorem startFireStep_state (tree : LTree) (s : Session) (cs : List Nat) :
    (startFireStep tree s cs).game.state = s.game.state := by
  simp only [startFireStep]
  split_ifs <;> rfl

theorem pendingTimeoutStep_state (s : Session) (uid : String) :
    (pendingTimeoutStep s uid).game.state = s.game.state ∨
      (pendingTimeoutStep s uid).game.state = .inProgress := by
  simp only [pendingTimeoutStep]
  split_ifs <;> simp

theorem writtenStep_state (s : Session) (uid text : String) :
    (writtenStep s uid text).game.state = s.game.state := by
  simp only [writtenStep]
  split_ifs <;> rfl

theorem tickStep_state (s : Session) (now : Nat) :
    (tickStep s now).game.state = s.game.state ∨
      (tickStep s now).game.state = .completed := by
  simp only [tickStep]
  split_ifs <;> simp [endGameStep]

theorem moveStep_state (dict : List String) (tree : LTree) (s : Session)
    (uid word : String) (cs : List Nat) :
    (moveStep dict tree s uid word cs).game.state = s.game.state ∨
      (moveStep dict tree s uid word cs).game.state = .completed := by
  simp only [moveStep]
  by_cases hc : uid ∉ s.connected
  · rw [if_pos hc]
    exact Or.inl rfl
  · rw [if_neg hc]
    cases h : pdLookup s.game.playerData uid with
    | none =>
      simp only [h]
      exact Or.inl trivial
    | some pd =>
      simp only [h]
      by_cases hv : (isValidWord dict word pd.letters pd.words).valid = false
      · rw [if_pos hv]
        exact Or.inl rfl
      · rw [if_neg hv]
        by_cases ht : s.game.victoryThreshold > 0 ∧ pd.points + 1 ≥ s.game.victoryThreshold
        · rw [if_pos ht]
          exact Or.inr rfl
        · rw [if_neg ht]
          by_cases he : pd.points + 1 > s.game.letterAddFrequency * (pd.letterIncreases + 1)
              ∧ s.game.letterAddFrequency > 0
          · simp only [if_pos he]
            exact Or.inl trivial
          · simp only [if_neg he]
            exact Or.inl trivial

/-- Master transition lemma: one event either keeps the state, moves to
`IN_PROGRESS` or `COMPLETED`, or moves to `PAUSED` — and the latter only
from `IN_PROGRESS`. -/
theorem stepState (dict : List String) (tree : LTree) (s : Session) (e : Ev) :
    (stepEv dict tree s e).game.state = s.game.state
  ∨ (stepEv dict tree s e).game.state = .inProgress
  ∨ (stepEv dict tree s e).game.state = .completed
  ∨ ((stepEv dict tree s e).game.state = .paused ∧ s.game.state = .inProgress) := by
  cases e with
  | connect uid now =>
    rcases connectStep_state s uid now with h | h
    · exact Or.inl h
    · exact Or.inr (Or.inl h)
  | disconnect uid =>
    rcases disconnectStep_state s uid with h | h
    · exact Or.inl h
    · exact Or.inr (Or.inr (Or.inr h))
  | startFire cs => exact Or.inl (startFireStep_state tree s cs)
  | move uid word cs =>
    rcases moveStep_state dict tree s uid word cs with h | h
    · exact Or.inl h
    · exact Or.inr (Or.inr (Or.inl h))
  | written uid text => exact Or.inl (writtenStep_state s uid text)
  | tick now =>
    rcases tickStep_state s now with h | h
    · exact Or.inl h
    · exact Or.inr (Or.inr (Or.inl h))
  | pendingTimeout uid =>
    rcases pendingTimeoutStep_state s uid with h | h
    · exact Or.inl h
    · exact Or.inr (Or.inl h)

/-- No handler ever assigns `ABANDONED`. -/
theorem stepEv_not_abandoned (dict : List String) (tree : LTree) (s : Session)
    (e : Ev) (h : s.game.state ≠ .abandoned) :
    (stepEv dict tree s e).game.state ≠ .abandoned := by
  rcases stepState dict tree s e with h1 | h1 | h1 | h1
  · rw [h1]; exact h
  · rw [h1]; intro hc; cases hc
  · rw [h1]; intro hc; cases hc
  · rw [h1.1]; intro hc; cases hc

theorem runEvents_not_abandoned (dict : List String) (tree : LTree)
    (s : Session) (es : List Ev) (h : s.game.state ≠ .abandoned) :
    (runEvents dict tree s es).game.state ≠ .abandoned := by
  induction es generalizing s with
  | nil => exact h
  | cons e es ih =>
    exact ih (stepEv dict tree s e) (stepEv_not_abandoned dict tree s e h)

/-- The updated entry of any map entry is an entry of the updated map. -/
theorem pdUpdate_mem_of_mem (l : List (String × PlayerData)) (k : String)
    (f : PlayerData → PlayerData) (e0 : String × PlayerData) (h : e0 ∈ l) :
    (e0.1, if e0.1 = k then f e0.2 else e0.2) ∈ pdUpdate l k f := by
  induction l with
  | nil => simp at h
  | cons a t ih =>
    obtain ⟨p, d⟩ := a
    rw [pdUpdate]
    rcases List.mem_cons.mp h with h0 | h0
    · rw [h0]
      exact List.mem_cons_self _ _
    · exact List.mem_cons_of_mem _ (ih h0)

/-! ### Claims -/

/-- C7, counterexample.  The claim says `getNextTierCombos` is
case-insensitive: its result on an input with uppercase letters equals its
result on the lowercased input.  On the tree `{a: {b: {}}}` the input
`"A"` returns the empty set while its lowercase form `"a"` returns
`["ab"]`: the lookup walks the tree without lower-casing, so an uppercase
letter is simply not found. -/
theorem c7_case_sensitive_cex :
    getNextTierCombos tree1 "A" = []
      ∧ getNextTierCombos tree1 (lowerStr "A") = ["ab"]
      ∧ getNextTierCombos tree1 "A" ≠ getNextTierCombos tree1 (lowerStr "A") := by
  decide

/-- C7, amended.  `getNextTierCombos` keys on lowercase letters and does
not lower-case its input, so it agrees with itself on the lowercased form
only when the input already contains no uppercase ASCII letter; its caller
`incrementLetters` lower-cases the combination before the lookup. -/
theorem c7_lowercase_input_agrees (tree : LTree) (s : String)
    (h : ∀ c ∈ s.data, ¬(65 ≤ c.toNat ∧ c.toNat ≤ 90)) :
    getNextTierCombos tree s = getNextTierCombos tree (lowerStr s) := by
  have h2 : s.data.map lowerChar = s.data := by
    have h3 : s.data.map lowerChar = s.data.map id := by
      apply List.map_congr_left
      intro c hc
      unfold lowerChar
      rw [if_neg (h c hc)]
      rfl
    rw [h3, List.map_id]
  have hs : lowerStr s = s := by
    show (⟨s.data.map lowerChar⟩ : String) = s
    rw [h2]
  rw [hs]

/-- Witness for the C7 amended theorem at a concrete lowercase input. -/
theorem c7_lowercase_input_agrees_witness :
    getNextTierCombos tree1 "ab" = getNextTierCombos tree1 (lowerStr "ab") :=
  c7_lowercase_input_agrees tree1 "ab" (by decide)

/-- C6, counterexample.  The claim says every out-of-range settings field
is rejected.  But each range check is guarded by JavaScript truthiness of
the field, so the falsy value `0` bypasses it: an admin submitting
`{gameDuration: 0, letterAddFrequency: 10, victoryThreshold: 100}` — with
`0` far below the documented minimum of `10000` — is accepted, and the
lobby's stored settings are replaced. -/
theorem c6_zero_duration_cex :
    (∃ n : Int, (GameSettingsMsg.mk (some 0) (some 10) (some 100)).gameDuration = some n
        ∧ (n < 10000 ∨ n > 3600000))
      ∧ setGameSettings (Lobby.mk "adm" defaultSettings) "adm"
          (some (GameSettingsMsg.mk (some 0) (some 10) (some 100)))
        = (.ok, Lobby.mk "adm" (GameSettingsMsg.mk (some 0) (some 10) (some 100)))
      ∧ (setGameSettings (Lobby.mk "adm" defaultSettings) "adm"
          (some (GameSettingsMsg.mk (some 0) (some 10) (some 100)))).2.gameSettings
          ≠ (Lobby.mk "adm" defaultSettings).gameSettings := by
  refine ⟨⟨0, rfl, Or.inl (by decide)⟩, by decide, by decide⟩

/-- C6, amended.  For the lobby admin, a field that is *truthy* (present
and nonzero) and outside its range is rejected with that field's specific
reason — in the order gameDuration, letterAddFrequency, victoryThreshold —
and every rejection leaves the stored settings unchanged; a zero field
bypasses its range check. -/
theorem c6_truthy_range_validation (L : Lobby) (pid : String)
    (gs : GameSettingsMsg) (hadmin : pid = L.adminId) :
    (fieldBad gs.gameDuration 10000 3600000 = true →
      setGameSettings L pid (some gs)
        = (.invalid "gameDuration must be between 10 seconds and 60 minutes", L))
    ∧ (fieldBad gs.gameDuration 10000 3600000 = false →
        fieldBad gs.letterAddFrequency 0 999 = true →
        setGameSettings L pid (some gs)
          = (.invalid "letterAddFrequency must be between 0 and 999", L))
    ∧ (fieldBad gs.gameDuration 10000 3600000 = false →
        fieldBad gs.letterAddFrequency 0 999 = false →
        fieldBad gs.victoryThreshold 0 999 = true →
        setGameSettings L pid (some gs)
          = (.invalid "victoryThreshold must be between 0 and 999", L)) := by
  refine ⟨?_, ?_, ?_⟩
  · intro h1
    simp [setGameSettings, hadmin, h1]
  · intro h1 h2
    simp [setGameSettings, hadmin, h1, h2]
  · intro h1 h2 h3
    simp [setGameSettings, hadmin, h1, h2, h3]

/-- Witness for the C6 amended theorem: the spec's own scenario,
`victoryThreshold = 1000`, is rejected with the victory-threshold reason
and the lobby keeps its defaults. -/
theorem c6_truthy_range_validation_witness :
    setGameSettings (Lobby.mk "adm" defaultSettings) "adm"
        (some (GameSettingsMsg.mk none none (some 1000)))
      = (.invalid "victoryThreshold must be between 0 and 999",
         Lobby.mk "adm" defaultSettings) :=
  (c6_truthy_range_validation (Lobby.mk "adm" defaultSettings) "adm"
      (GameSettingsMsg.mk none none (some 1000)) rfl).2.2
    (by decide) (by decide) (by decide)

/-- C4: the claim (and the validator's own already-used check) expect the
stored canonical form of a used word to be lowercase.  The move handler
instead pushes the raw submission (`words.push(data)`), while the check
compares the lowercased new word against the stored entries, so after a
valid `"Cat"` both `"cat"` and even the identical `"Cat"` are accepted
again.  Evaluated at the failing input: player A (letters `"a"`, dictionary
containing `"cat"`) submits `"Cat"` and then `"cat"`; both are accepted and
the stored list is `["Cat", "cat"]`, whereas the stored form `"cat"` would
have made the second submission fail with the already-used reason. -/
theorem c4_raw_word_stored_bug :
    ((pdLookup (runEvents dict1 tree1 (mkSession ["A", "B"] (fun p => p) 120000 10 0)
        [.connect "A" 0, .connect "B" 0, .startFire [0, 0],
         .move "A" "Cat" [], .move "A" "cat" []]).game.playerData "A").map
          PlayerData.words = some ["Cat", "cat"])
      ∧ ((pdLookup (runEvents dict1 tree1 (mkSession ["A", "B"] (fun p => p) 120000 10 0)
          [.connect "A" 0, .connect "B" 0, .startFire [0, 0],
           .move "A" "Cat" [], .move "A" "cat" []]).game.playerData "A").map
            PlayerData.points = some 2)
      ∧ (isValidWord dict1 "cat" "a" ["Cat"]).valid = true
      ∧ (isValidWord dict1 "cat" "a" ["cat"]).valid = false := by
  refine ⟨by decide, by decide, by decide, by decide⟩

/-- C2, counterexample.  The claim says a session never leaves
`COMPLETED`.  Reachable refutation: in a two-player match with
`victoryThreshold = 1`, B disconnects mid-game (pause plus a pending
reconnection timeout), A's winning move completes the match — `endGame`
clears neither `pendingPlayers` nor its timeout — and B's reconnection
inside the grace window then drives the completed session back to
`IN_PROGRESS` through the unconditional resume branch. -/
theorem c2_completed_reenters_cex :
    (runEvents dict1 tree1 (mkSession ["A", "B"] (fun p => p) 120000 10 1)
        [.connect "A" 0, .connect "B" 0, .startFire [0, 0], .disconnect "B",
         .move "A" "aa" []]).game.state = GState.completed
      ∧ (runEvents dict1 tree1 (mkSession ["A", "B"] (fun p => p) 120000 10 1)
          [.connect "A" 0, .connect "B" 0, .startFire [0, 0], .disconnect "B",
           .move "A" "aa" [], .connect "B" 1000]).game.state = GState.inProgress := by
  refine ⟨by decide, by decide⟩

/-- C2, amended.  Half of the claim holds: no event ever moves a session
from `NOT_STARTED` directly to `PAUSED` (the pause is guarded by
`state === IN_PROGRESS`), and `ABANDONED` is never entered at all.
The other half fails: `COMPLETED` is not terminal — a pending reconnect
or its timeout moves a completed session back to `IN_PROGRESS`
(see the counterexample). -/
theorem c2_amended_transitions (dict : List String) (tree : LTree) :
    (∀ (s : Session) (e : Ev), (stepEv dict tree s e).game.state = GState.paused →
        s.game.state = GState.inProgress ∨ s.game.state = GState.paused)
    ∧ (∀ (ids : List String) (uname : String → String) (gd laf vt : Nat) (es : List Ev),
        (runEvents dict tree (mkSession ids uname gd laf vt) es).game.state
          ≠ GState.abandoned) := by
  constructor
  · intro s e hp
    rcases stepState dict tree s e with h | h | h | h
    · rw [hp] at h
      exact Or.inr h.symm
    · rw [hp] at h
      exact absurd h (by decide)
    · rw [hp] at h
      exact absurd h (by decide)
    · exact Or.inl h.2
  · intro ids uname gd laf vt es
    apply runEvents_not_abandoned
    intro hc
    simp [mkSession] at hc

/-- Witness for the C2 amended theorem: a concrete pause transition
really came from `IN_PROGRESS`, and a concrete freshly created session is
not `ABANDONED`. -/
theorem c2_amended_transitions_witness :
    ((runEvents dict1 tree1 (mkSession ["A", "B"] (fun p => p) 120000 10 1)
        [.connect "A" 0, .connect "B" 0]).game.state = GState.inProgress
      ∨ (runEvents dict1 tree1 (mkSession ["A", "B"] (fun p => p) 120000 10 1)
          [.connect "A" 0, .connect "B" 0]).game.state = GState.paused)
    ∧ (runEvents dict1 tree1 (mkSession ["A", "B"] (fun p => p) 120000 10 1)
        []).game.state ≠ GState.abandoned :=
  ⟨(c2_amended_transitions dict1 tree1).1 _ (.disconnect "B") (by decide),
   (c2_amended_transitions dict1 tree1).2 ["A", "B"] (fun p => p) 120000 10 1 []⟩

/-- When the interval is armed, the game in progress and the duration
reached, one tick ends the game and disarms the interval. -/
theorem tickStep_expire (s : Session) (now : Nat)
    (h1 : s.timerOn = true) (h2 : s.game.state = GState.inProgress)
    (h3 : 1000 * ((now - s.game.startTime) / 1000) ≥ s.game.gameDuration) :
    tickStep s now
      = { (endGameStep { s with game :=
            { s.game with elapsedTime := (now - s.game.startTime) / 1000 } }) with
          timerOn := false } := by
  simp only [tickStep]
  rw [if_neg (by simp [h1]), if_neg (by simp [h2]), if_pos h3]

/-- C10: on every tick while `IN_PROGRESS`, `elapsedTime` is recomputed as
`⌊(now − startTime) / 1000⌋` from the original start timestamp; the
reconnection-resume branch never adjusts `startTime`; consequently — the
concrete trace — a two-player 10-second match started at 0, paused at 1 s
by a disconnect and resumed by a reconnection at 11 s, is completed by the
very first tick after the resume, with `elapsedTime = 11` counting the
whole paused stretch. -/
theorem c10_elapsed_counts_pause (s : Session) (uid : String) (now now2 : Nat) :
    (s.timerOn = true → s.game.state = GState.inProgress →
      (tickStep s now).game.elapsedTime = (now - s.game.startTime) / 1000)
    ∧ (uid ∈ s.pending → (connectStep s uid now2).game.startTime = s.game.startTime)
    ∧ (runEvents dict1 tree1 (mkSession ["p1", "p2"] (fun p => p) 10000 10 0)
        [.connect "p1" 0, .connect "p2" 0, .startFire [0, 0], .tick 1000,
         .disconnect "p2", .tick 9000, .connect "p2" 11000, .tick 11000]).game.state
          = GState.completed
    ∧ (runEvents dict1 tree1 (mkSession ["p1", "p2"] (fun p => p) 10000 10 0)
        [.connect "p1" 0, .connect "p2" 0, .startFire [0, 0], .tick 1000,
         .disconnect "p2", .tick 9000, .connect "p2" 11000, .tick 11000]).game.elapsedTime
          = 11 := by
  refine ⟨?_, ?_, by decide, by decide⟩
  · intro h1 h2
    simp only [tickStep]
    rw [if_neg (by simp [h1]), if_neg (by simp [h2])]
    split_ifs <;> rfl
  · intro hp
    simp only [connectStep]
    rw [if_pos hp]

/-- Witness for C10 at concrete inputs: a tick at 3000 ms on the running
session recomputes `elapsedTime` from `startTime`, and a reconnection of
the pending player leaves `startTime` unchanged. -/
theorem c10_elapsed_counts_pause_witness :
    (tickStep (runEvents dict1 tree1 (mkSession ["p1", "p2"] (fun p => p) 10000 10 0)
        [.connect "p1" 0, .connect "p2" 0]) 3000).game.elapsedTime
      = (3000 - (runEvents dict1 tree1 (mkSession ["p1", "p2"] (fun p => p) 10000 10 0)
          [.connect "p1" 0, .connect "p2" 0]).game.startTime) / 1000
    ∧ (connectStep (runEvents dict1 tree1 (mkSession ["p1", "p2"] (fun p => p) 10000 10 0)
        [.connect "p1" 0, .connect "p2" 0, .disconnect "p2"]) "p2" 9999).game.startTime
      = (runEvents dict1 tree1 (mkSession ["p1", "p2"] (fun p => p) 10000 10 0)
          [.connect "p1" 0, .connect "p2" 0, .disconnect "p2"]).game.startTime :=
  ⟨(c10_elapsed_counts_pause _ "p2" 3000 9999).1 (by decide) (by decide),
   (c10_elapsed_counts_pause _ "p2" 3000 9999).2.1 (by decide)⟩

/-- C1, amended.  In the timer-expiry scenario (`matchDurationMs = 10000`,
two players, no valid submissions) the session does complete within the
first tick at or after 10 simulated seconds and both scores are 0, but the
broadcast winner is *not* `null`: `endGame` starts its fold at
`highestScore = -1`, so the all-zero tie is won by the first participant
in iteration order — here `"p1"`. -/
theorem c1_timer_expiry_amended (t1 t : Nat) (ht : t1 + 10000 ≤ t) :
    (runEvents dict1 tree1 (mkSession ["p1", "p2"] (fun p => p) 10000 10 100)
        [.connect "p1" 0, .connect "p2" t1, .startFire [0, 0], .tick t]).game.state
          = GState.completed
    ∧ (runEvents dict1 tree1 (mkSession ["p1", "p2"] (fun p => p) 10000 10 100)
        [.connect "p1" 0, .connect "p2" t1, .startFire [0, 0], .tick t]).emitted
          = [OutEv.gameStarted, OutEv.gameState,
             OutEv.gameEnded (some "p1") [("p1", 0), ("p2", 0)] ((t - t1) / 1000)] := by
  have h2 : 10 ≤ (t - t1) / 1000 := (Nat.le_div_iff_mul_le (by norm_num)).mpr (by omega)
  have harith : 1000 * ((t - t1) / 1000) ≥ 10000 := by omega
  have hstep := tickStep_expire
      (runEvents dict1 tree1 (mkSession ["p1", "p2"] (fun p => p) 10000 10 100)
        [.connect "p1" 0, .connect "p2" t1, .startFire [0, 0]]) t rfl rfl harith
  constructor
  · show (tickStep (runEvents dict1 tree1 (mkSession ["p1", "p2"] (fun p => p) 10000 10 100)
        [.connect "p1" 0, .connect "p2" t1, .startFire [0, 0]]) t).game.state
      = GState.completed
    rw [hstep]
    rfl
  · show (tickStep (runEvents dict1 tree1 (mkSession ["p1", "p2"] (fun p => p) 10000 10 100)
        [.connect "p1" 0, .connect "p2" t1, .startFire [0, 0]]) t).emitted
      = [OutEv.gameStarted, OutEv.gameState,
         OutEv.gameEnded (some "p1") [("p1", 0), ("p2", 0)] ((t - t1) / 1000)]
    rw [hstep]
    rfl

/-- Witness for the C1 amended theorem at `t1 = 0`, `t = 10000`. -/
theorem c1_timer_expiry_amended_witness :
    (runEvents dict1 tree1 (mkSession ["p1", "p2"] (fun p => p) 10000 10 100)
        [.connect "p1" 0, .connect "p2" 0, .startFire [0, 0], .tick 10000]).game.state
          = GState.completed
    ∧ (runEvents dict1 tree1 (mkSession ["p1", "p2"] (fun p => p) 10000 10 100)
        [.connect "p1" 0, .connect "p2" 0, .startFire [0, 0], .tick 10000]).emitted
          = [OutEv.gameStarted, OutEv.gameState,
             OutEv.gameEnded (some "p1") [("p1", 0), ("p2", 0)] ((10000 - 0) / 1000)] :=
  c1_timer_expiry_amended 0 10000 (by decide)

/-- C1, counterexample.  The claim requires `winner = null` in the
timer-expiry scenario; running it concretely (start at 0, tick at 10000)
ends the session `COMPLETED` with both scores 0 but broadcasts
`winner = "p1"`, which is not `null`. -/
theorem c1_winner_not_null_cex :
    (runEvents dict1 tree1 (mkSession ["p1", "p2"] (fun p => p) 10000 10 100)
        [.connect "p1" 0, .connect "p2" 5, .startFire [0, 0], .tick 10005]).game.state
          = GState.completed
    ∧ (runEvents dict1 tree1 (mkSession ["p1", "p2"] (fun p => p) 10000 10 100)
        [.connect "p1" 0, .connect "p2" 5, .startFire [0, 0], .tick 10005]).emitted
          = [OutEv.gameStarted, OutEv.gameState,
             OutEv.gameEnded (some "p1") [("p1", 0), ("p2", 0)] 10]
    ∧ (some "p1" : Option String) ≠ none := by
  refine ⟨by decide, by decide, by decide⟩

/-- C3, counterexample.  The claim says a submitter's own
`letterIncreases` never increases and that the counter rises through an
opponent's valid submission.  In the code it is exactly the other way
round: with `letterAddFrequency = 1`, after A's own two valid submissions
A's counter is 1 while B — whose letters were escalated as the side
effect — keeps counter 0. -/
theorem c3_submitter_counter_cex :
    ((pdLookup (runEvents dict1 tree1 (mkSession ["A", "B"] (fun p => p) 120000 1 0)
        [.connect "A" 0, .connect "B" 0, .startFire [0, 0],
         .move "A" "aa" [0, 0], .move "A" "ab" [0, 0]]).game.playerData "A").map
          PlayerData.letterIncreases = some 1)
      ∧ ((pdLookup (runEvents dict1 tree1 (mkSession ["A", "B"] (fun p => p) 120000 1 0)
          [.connect "A" 0, .connect "B" 0, .startFire [0, 0],
           .move "A" "aa" [0, 0], .move "A" "ab" [0, 0]]).game.playerData "B").map
            PlayerData.letterIncreases = some 0)
      ∧ lettersOf (runEvents dict1 tree1 (mkSession ["A", "B"] (fun p => p) 120000 1 0)
          [.connect "A" 0, .connect "B" 0, .startFire [0, 0],
           .move "A" "aa" [0, 0], .move "A" "ab" [0, 0]]) "B" = "ab" := by
  refine ⟨by decide, by decide, by decide⟩

/-- C3, amended.  `letterIncreases` of a player is modified only by that
player's own submissions: a `move` by `uid` never changes the counter of
any other player `p` — what changes for the others is `currentLetters`.
(The submitter's own counter rises by one exactly when the escalation
condition is met.) -/
theorem c3_amended_counter_own_moves_only (dict : List String) (tree : LTree)
    (s : Session) (uid word : String) (cs : List Nat) (p : String)
    (hne : p ≠ uid) :
    (pdLookup (moveStep dict tree s uid word cs).game.playerData p).map
        PlayerData.letterIncreases
      = (pdLookup s.game.playerData p).map PlayerData.letterIncreases := by
  simp only [moveStep]
  by_cases hc : uid ∉ s.connected
  · rw [if_pos hc]
  · rw [if_neg hc]
    cases h : pdLookup s.game.playerData uid with
    | none => simp only [h]
    | some pd =>
      simp only [h]
      by_cases hv : (isValidWord dict word pd.letters pd.words).valid = false
      · rw [if_pos hv]
      · rw [if_neg hv]
        by_cases ht : s.game.victoryThreshold > 0
            ∧ pd.points + 1 ≥ s.game.victoryThreshold
        · rw [if_pos ht]
          simp only [endGameStep]
          rw [pdLookup_mapVals_proj PlayerData.letterIncreases _ _
            (fun d => { d with isPlaying := false }) (fun d => rfl)]
          rw [pdLookup_update_ne _ _ _ _ hne]
        · rw [if_neg ht]
          by_cases he : pd.points + 1
              > s.game.letterAddFrequency * (pd.letterIncreases + 1)
              ∧ s.game.letterAddFrequency > 0
          · simp only [if_pos he]
            rw [pdLookup_update_proj PlayerData.letterIncreases _ _ _
              (fun d => { d with words := d.words ++ [word] }) (fun d => rfl)]
            rw [escalate,
              pdLookup_escalateFrom_proj PlayerData.letterIncreases _ _ _ _ _ _
                (fun d x => rfl)]
            rw [pdLookup_update_ne _ _ _ _ hne]
            rw [pdLookup_update_ne _ _ _ _ hne]
          · simp only [if_neg he]
            rw [pdLookup_update_proj PlayerData.letterIncreases _ _ _
              (fun d => { d with words := d.words ++ [word] }) (fun d => rfl)]
            rw [pdLookup_update_ne _ _ _ _ hne]

/-- Witness for the C3 amended theorem: B's counter is untouched by A's
concrete valid move. -/
theorem c3_amended_counter_own_moves_only_witness :
    (pdLookup (moveStep dict1 tree1
        (runEvents dict1 tree1 (mkSession ["A", "B"] (fun p => p) 120000 1 0)
          [.connect "A" 0, .connect "B" 0, .startFire [0, 0]]) "A" "aa" []).game.playerData
        "B").map PlayerData.letterIncreases
      = (pdLookup (runEvents dict1 tree1 (mkSession ["A", "B"] (fun p => p) 120000 1 0)
          [.connect "A" 0, .connect "B" 0, .startFire [0, 0]]).game.playerData "B").map
          PlayerData.letterIncreases :=
  c3_amended_counter_own_moves_only dict1 tree1 _ "A" "aa" [] "B" (by decide)

/-- C9: the `move` handler reads no session state.  Whatever
`s.game.state` is — `NOT_STARTED`, the `undefined` pause, or `COMPLETED` —
a valid word from a connected participant increments their points, and
then either the positive victory threshold is reached and the session is
(re-)completed on the spot, or the raw word is appended to their used
list. -/
theorem c9_move_ignores_state (dict : List String) (tree : LTree)
    (s : Session) (uid word : String) (cs : List Nat) (pd : PlayerData)
    (hconn : uid ∈ s.connected)
    (hpd : pdLookup s.game.playerData uid = some pd)
    (hvalid : (isValidWord dict word pd.letters pd.words).valid = true) :
    ((pdLookup (moveStep dict tree s uid word cs).game.playerData uid).map
        PlayerData.points = some (pd.points + 1))
    ∧ (s.game.victoryThreshold > 0 ∧ pd.points + 1 ≥ s.game.victoryThreshold →
        (moveStep dict tree s uid word cs).game.state = GState.completed)
    ∧ (¬(s.game.victoryThreshold > 0 ∧ pd.points + 1 ≥ s.game.victoryThreshold) →
        (pdLookup (moveStep dict tree s uid word cs).game.playerData uid).map
          PlayerData.words = some (pd.words ++ [word])) := by
  have hv : ¬((isValidWord dict word pd.letters pd.words).valid = false) := by
    rw [hvalid]
    decide
  have hc : ¬(uid ∉ s.connected) := fun hn => hn hconn
  by_cases ht : s.game.victoryThreshold > 0 ∧ pd.points + 1 ≥ s.game.victoryThreshold
  · refine ⟨?_, fun _ => ?_, fun hn => absurd ht hn⟩
    · simp only [moveStep, if_neg hc, hpd, if_neg hv, if_pos ht, endGameStep]
      rw [pdLookup_mapVals_proj PlayerData.points _ _
        (fun d => { d with isPlaying := false }) (fun d => rfl)]
      rw [pdLookup_update_self, hpd]
      rfl
    · simp only [moveStep, if_neg hc, hpd, if_neg hv, if_pos ht, endGameStep]
  · refine ⟨?_, fun hy => absurd hy ht, fun _ => ?_⟩
    · simp only [moveStep, if_neg hc, hpd, if_neg hv, if_neg ht]
      by_cases he : pd.points + 1
          > s.game.letterAddFrequency * (pd.letterIncreases + 1)
          ∧ s.game.letterAddFrequency > 0
      · simp only [if_pos he]
        rw [pdLookup_update_proj PlayerData.points _ _ _
          (fun d => { d with words := d.words ++ [word] }) (fun d => rfl)]
        rw [escalate, pdLookup_escalateFrom_self]
        rw [pdLookup_update_proj PlayerData.points _ _ _
          (fun d => { d with letterIncreases := pd.letterIncreases + 1 }) (fun d => rfl)]
        rw [pdLookup_update_self, hpd]
        rfl
      · simp only [if_neg he]
        rw [pdLookup_update_proj PlayerData.points _ _ _
          (fun d => { d with words := d.words ++ [word] }) (fun d => rfl)]
        rw [pdLookup_update_self, hpd]
        rfl
    · simp only [moveStep, if_neg hc, hpd, if_neg hv, if_neg ht]
      by_cases he : pd.points + 1
          > s.game.letterAddFrequency * (pd.letterIncreases + 1)
          ∧ s.game.letterAddFrequency > 0
      · simp only [if_pos he]
        rw [pdLookup_update_self]
        rw [escalate, pdLookup_escalateFrom_self]
        rw [pdLookup_update_self]
        rw [pdLookup_update_self, hpd]
        rfl
      · simp only [if_neg he]
        rw [pdLookup_update_self]
        rw [pdLookup_update_self, hpd]
        rfl

/-- Witness for C9 on a *completed* session: the winning move of the C2
counterexample trace left the session `COMPLETED` with B still holding a
playerData entry of 0 points, and B's valid word is still processed. -/
theorem c9_move_ignores_state_witness :
    ((pdLookup (moveStep dict1 tree1
        (runEvents dict1 tree1 (mkSession ["A", "B"] (fun p => p) 120000 10 1)
          [.connect "A" 0, .connect "B" 0, .startFire [0, 0], .disconnect "B",
           .move "A" "aa" [], .connect "B" 1000]) "B" "aa" []).game.playerData "B").map
        PlayerData.points = some (0 + 1))
    ∧ ((runEvents dict1 tree1 (mkSession ["A", "B"] (fun p => p) 120000 10 1)
          [.connect "A" 0, .connect "B" 0, .startFire [0, 0], .disconnect "B",
           .move "A" "aa" [], .connect "B" 1000]).game.victoryThreshold > 0
        ∧ 0 + 1 ≥ (runEvents dict1 tree1 (mkSession ["A", "B"] (fun p => p) 120000 10 1)
            [.connect "A" 0, .connect "B" 0, .startFire [0, 0], .disconnect "B",
             .move "A" "aa" [], .connect "B" 1000]).game.victoryThreshold →
        (moveStep dict1 tree1
          (runEvents dict1 tree1 (mkSession ["A", "B"] (fun p => p) 120000 10 1)
            [.connect "A" 0, .connect "B" 0, .startFire [0, 0], .disconnect "B",
             .move "A" "aa" [], .connect "B" 1000]) "B" "aa" []).game.state
          = GState.completed)
    ∧ (¬((runEvents dict1 tree1 (mkSession ["A", "B"] (fun p => p) 120000 10 1)
            [.connect "A" 0, .connect "B" 0, .startFire [0, 0], .disconnect "B",
             .move "A" "aa" [], .connect "B" 1000]).game.victoryThreshold > 0
          ∧ 0 + 1 ≥ (runEvents dict1 tree1 (mkSession ["A", "B"] (fun p => p) 120000 10 1)
              [.connect "A" 0, .connect "B" 0, .startFire [0, 0], .disconnect "B",
               .move "A" "aa" [], .connect "B" 1000]).game.victoryThreshold) →
        (pdLookup (moveStep dict1 tree1
          (runEvents dict1 tree1 (mkSession ["A", "B"] (fun p => p) 120000 10 1)
            [.connect "A" 0, .connect "B" 0, .startFire [0, 0], .disconnect "B",
             .move "A" "aa" [], .connect "B" 1000]) "B" "aa" []).game.playerData "B").map
          PlayerData.words = some ([] ++ ["aa"])) := by
  have h := c9_move_ignores_state dict1 tree1
    (runEvents dict1 tree1 (mkSession ["A", "B"] (fun p => p) 120000 10 1)
      [.connect "A" 0, .connect "B" 0, .startFire [0, 0], .disconnect "B",
       .move "A" "aa" [], .connect "B" 1000]) "B" "aa" []
    { points := 0, letters := "a", written := "", words := [], username := "B",
      letterIncreases := 0, isPlaying := false }
    (by decide) (by decide) (by decide)
  exact h

/-- C8, counterexample.  The claim says that with `victoryThreshold = 1` a
single valid submission from player A ends the match with `winner = A`
regardless of other players' scores.  Reachable refutation (players
created in order B, A): B wins while A is disconnection-paused, A's
reconnection illegally resumes the completed match, and then A's single
valid submission from `IN_PROGRESS` re-runs `endGame` — which recomputes
the winner as the highest-scoring participant, a 1–1 tie resolved to B by
iteration order, so the broadcast winner is B, not A. -/
theorem c8_tie_winner_cex :
    (runEvents dict1 tree1 (mkSession ["B", "A"] (fun p => p) 120000 10 1)
        [.connect "B" 0, .connect "A" 0, .startFire [0, 0], .disconnect "A",
         .move "B" "aa" [], .connect "A" 1000]).game.state = GState.inProgress
    ∧ ((pdLookup (runEvents dict1 tree1 (mkSession ["B", "A"] (fun p => p) 120000 10 1)
        [.connect "B" 0, .connect "A" 0, .startFire [0, 0], .disconnect "A",
         .move "B" "aa" [], .connect "A" 1000]).game.playerData "A").map
          PlayerData.points = some 0)
    ∧ (stepEv dict1 tree1 (runEvents dict1 tree1 (mkSession ["B", "A"] (fun p => p) 120000 10 1)
        [.connect "B" 0, .connect "A" 0, .startFire [0, 0], .disconnect "A",
         .move "B" "aa" [], .connect "A" 1000]) (.move "A" "ab" [])).game.state
          = GState.completed
    ∧ (stepEv dict1 tree1 (runEvents dict1 tree1 (mkSession ["B", "A"] (fun p => p) 120000 10 1)
        [.connect "B" 0, .connect "A" 0, .startFire [0, 0], .disconnect "A",
         .move "B" "aa" [], .connect "A" 1000]) (.move "A" "ab" [])).emitted.getLast?
          = some (OutEv.gameEnded (some "B") [("B", 1), ("A", 1)] 0)
    ∧ (some "B" : Option String) ≠ some "A" := by
  refine ⟨by decide, by decide, by decide, by decide, by decide⟩

/-- C8, amended.  With `victoryThreshold = 1`, a valid submission from a
connected participant A ends the match immediately in `COMPLETED`, and the
broadcast winner is the highest-scoring participant; when every *other*
participant holds 0 points at that moment — as in the scenario's fresh
match — that winner is A. -/
theorem c8_amended_threshold_winner (dict : List String) (tree : LTree)
    (s : Session) (A word : String) (cs : List Nat) (pd : PlayerData)
    (hconn : A ∈ s.connected)
    (hpd : pdLookup s.game.playerData A = some pd)
    (hpts : pd.points = 0)
    (hothers : ∀ e ∈ s.game.playerData, e.1 ≠ A → e.2.points = 0)
    (hvt : s.game.victoryThreshold = 1)
    (hvalid : (isValidWord dict word pd.letters pd.words).valid = true) :
    (moveStep dict tree s A word cs).game.state = GState.completed
    ∧ ∃ sc, (moveStep dict tree s A word cs).emitted
        = s.emitted ++ [OutEv.gameEnded (some A) sc s.game.elapsedTime] := by
  have hv : ¬((isValidWord dict word pd.letters pd.words).valid = false) := by
    rw [hvalid]
    decide
  have hc : ¬(A ∉ s.connected) := fun hn => hn hconn
  have ht : s.game.victoryThreshold > 0 ∧ pd.points + 1 ≥ s.game.victoryThreshold := by
    rw [hvt]
    omega
  simp only [moveStep, if_neg hc, hpd, if_neg hv, if_pos ht, endGameStep]
  refine ⟨trivial, ⟨scoresOf (pdUpdate s.game.playerData A
      (fun d => { d with points := pd.points + 1 })), ?_⟩⟩
  have hw : winnerOf (pdUpdate s.game.playerData A
      (fun d => { d with points := pd.points + 1 })) = some A := by
    rw [winnerOf]
    apply winnerAux_uniqueMax
    · norm_num
    · intro e he
      obtain ⟨e0, he0, heq⟩ := mem_pdUpdate _ _ _ _ he
      by_cases h0 : e0.1 = A
      · rw [heq, if_pos h0]
        refine ⟨fun _ => ?_, fun hne => absurd h0 (by simpa using hne)⟩
        simp [hpts]
      · rw [heq, if_neg h0]
        exact ⟨fun h1 => absurd h1 h0, fun _ => hothers e0 he0 h0⟩
    · have hm := pdLookup_some_mem _ _ _ hpd
      have h2 := pdUpdate_mem_of_mem s.game.playerData A
        (fun d => { d with points := pd.points + 1 }) (A, pd) hm
      rw [if_pos rfl] at h2
      exact ⟨_, h2⟩
  rw [hw]

/-- Witness for the C8 amended theorem: the fresh two-player
`victoryThreshold = 1` match, A's first valid word. -/
theorem c8_amended_threshold_winner_witness :
    (moveStep dict1 tree1
        (runEvents dict1 tree1 (mkSession ["A", "B"] (fun p => p) 120000 10 1)
          [.connect "A" 0, .connect "B" 0, .startFire [0, 0]]) "A" "aa" []).game.state
        = GState.completed
    ∧ ∃ sc, (moveStep dict1 tree1
        (runEvents dict1 tree1 (mkSession ["A", "B"] (fun p => p) 120000 10 1)
          [.connect "A" 0, .connect "B" 0, .startFire [0, 0]]) "A" "aa" []).emitted
        = (runEvents dict1 tree1 (mkSession ["A", "B"] (fun p => p) 120000 10 1)
            [.connect "A" 0, .connect "B" 0, .startFire [0, 0]]).emitted
          ++ [OutEv.gameEnded (some "A") sc
              (runEvents dict1 tree1 (mkSession ["A", "B"] (fun p => p) 120000 10 1)
                [.connect "A" 0, .connect "B" 0, .startFire [0, 0]]).game.elapsedTime] :=
  c8_amended_threshold_winner dict1 tree1 _ "A" "aa" []
    { points := 0, letters := "a", written := "", words := [], username := "A",
      letterIncreases := 0, isPlaying := true }
    (by decide) (by decide) (by decide) (by decide) (by decide) (by decide)

/-- C5, counterexample.  The claim says that with `letterAddFrequency = 1`
(and the victory threshold disabled) every other player's letters change
exactly twice across A's first two valid submissions (or stay unchanged
for lack of combinations).  The escalation trigger is strict
(`points > letterAddFrequency * (letterIncreases + 1)`), so A's first
submission (1 point) triggers nothing and the second (2 points) triggers
exactly one escalation: B's letters change once — from `"a"` to `"ab"` —
even though the tree still offered further combinations at both depths. -/
theorem c5_single_change_cex :
    countChanges ((statesAlong dict1 tree1
        (runEvents dict1 tree1 (mkSession ["A", "B"] (fun p => p) 120000 1 0)
          [.connect "A" 0, .connect "B" 0, .startFire [0, 0]])
        [.move "A" "aa" [0, 0], .move "A" "ab" [0, 0]]).map (fun st => lettersOf st "B"))
        = 1
    ∧ getNextTierCombos tree1 (lowerStr (lettersOf
        (runEvents dict1 tree1 (mkSession ["A", "B"] (fun p => p) 120000 1 0)
          [.connect "A" 0, .connect "B" 0, .startFire [0, 0]]) "B")) ≠ []
    ∧ getNextTierCombos tree1 (lowerStr (lettersOf
        (runEvents dict1 tree1 (mkSession ["A", "B"] (fun p => p) 120000 1 0)
          [.connect "A" 0, .connect "B" 0, .startFire [0, 0],
           .move "A" "aa" [0, 0], .move "A" "ab" [0, 0]]) "B")) ≠ []
    ∧ (1 : Nat) ≠ 2 := by
  refine ⟨by decide, by decide, by decide, by decide⟩

/-- C5, amended.  In a fresh two-player match with `letterAddFrequency = 1`
and the victory threshold disabled, A's first valid submission leaves B's
letters unchanged, and the second applies `incrementLetters` to them
exactly once — so across the two submissions B's letters change exactly
once when the tree offers a next tier, and not at all otherwise
(`incrementLetters` returns its input unchanged on an empty
combination set). -/
theorem c5_amended_one_escalation (dict : List String) (tree : LTree)
    (s : Session) (A B w1 w2 : String) (pdA pdB : PlayerData) (c1 c2 : List Nat)
    (hAB : A ≠ B)
    (hpd : s.game.playerData = [(A, pdA), (B, pdB)])
    (hconn : A ∈ s.connected)
    (hpts : pdA.points = 0) (hinc : pdA.letterIncreases = 0)
    (hlaf : s.game.letterAddFrequency = 1)
    (hvt : s.game.victoryThreshold = 0)
    (hv1 : (isValidWord dict w1 pdA.letters pdA.words).valid = true)
    (hv2 : (isValidWord dict w2 pdA.letters (pdA.words ++ [w1])).valid = true) :
    lettersOf (moveStep dict tree s A w1 c1) B = pdB.letters
    ∧ lettersOf (moveStep dict tree (moveStep dict tree s A w1 c1) A w2 c2) B
        = incrementLetters tree (c2.getD 1 0) pdB.letters := by
  have hBA : ¬(B = A) := fun h => hAB h.symm
  have hc : ¬(A ∉ s.connected) := fun hn => hn hconn
  have hv1' : ¬((isValidWord dict w1 pdA.letters pdA.words).valid = false) := by
    rw [hv1]
    decide
  have hlookA : pdLookup s.game.playerData A = some pdA := by
    rw [hpd]
    simp [pdLookup]
  have ht1 : ¬(s.game.victoryThreshold > 0 ∧ pdA.points + 1 ≥ s.game.victoryThreshold) := by
    rw [hvt]
    simp
  have he1 : ¬(pdA.points + 1 > s.game.letterAddFrequency * (pdA.letterIncreases + 1)
      ∧ s.game.letterAddFrequency > 0) := by
    rw [hpts, hinc, hlaf]
    omega
  have hs1 : moveStep dict tree s A w1 c1
      = { s with
          game := { s.game with playerData :=
            [(A, { pdA with points := pdA.points + 1, words := pdA.words ++ [w1] }),
             (B, pdB)] },
          emitted := s.emitted ++ [.validMove A] } := by
    simp only [moveStep, if_neg hc, hlookA, if_neg hv1', if_neg ht1, if_neg he1]
    rw [hpd]
    simp [pdUpdate, hBA]
  constructor
  · rw [hs1]
    simp [lettersOf, pdLookup, hAB]
  · rw [hs1]
    have hv2' : ¬((isValidWord dict w2 pdA.letters (pdA.words ++ [w1])).valid = false) := by
      rw [hv2]
      decide
    have ht2 : ¬(s.game.victoryThreshold > 0
        ∧ pdA.points + 1 + 1 ≥ s.game.victoryThreshold) := by
      rw [hvt]
      simp
    have he2 : pdA.points + 1 + 1 > s.game.letterAddFrequency * (pdA.letterIncreases + 1)
        ∧ s.game.letterAddFrequency > 0 := by
      rw [hpts, hinc, hlaf]
      omega
    simp only [moveStep]
    rw [if_neg (show ¬(A ∉ s.connected) from fun hn => hn hconn)]
    have hlook2 : pdLookup
        [(A, { pdA with points := pdA.points + 1, words := pdA.words ++ [w1] }), (B, pdB)] A
        = some { pdA with points := pdA.points + 1, words := pdA.words ++ [w1] } := by
      simp [pdLookup]
    simp only [hlook2]
    rw [if_neg hv2', if_neg ht2]
    simp only [if_pos he2]
    simp [lettersOf, pdLookup, pdUpdate, escalate, escalateFrom, hAB, hBA]

/-- Witness for the C5 amended theorem on the concrete fresh match: B's
letters `"a"` are untouched by A's first move and become `"ab"` after the
second. -/
theorem c5_amended_one_escalation_witness :
    lettersOf (moveStep dict1 tree1
        (runEvents dict1 tree1 (mkSession ["A", "B"] (fun p => p) 120000 1 0)
          [.connect "A" 0, .connect "B" 0, .startFire [0, 0]]) "A" "aa" [0, 0]) "B"
      = "a"
    ∧ lettersOf (moveStep dict1 tree1 (moveStep dict1 tree1
        (runEvents dict1 tree1 (mkSession ["A", "B"] (fun p => p) 120000 1 0)
          [.connect "A" 0, .connect "B" 0, .startFire [0, 0]]) "A" "aa" [0, 0])
          "A" "ab" [0, 0]) "B"
      = incrementLetters tree1 (List.getD [0, 0] 1 0) "a" :=
  c5_amended_one_escalation dict1 tree1 _ "A" "B" "aa" "ab"
    { points := 0, letters := "a", written := "", words := [], username := "A",
      letterIncreases := 0, isPlaying := true }
    { points := 0, letters := "a", written := "", words := [], username := "B",
      letterIncreases := 0, isPlaying := true }
    [0, 0] [0, 0]
    (by decide) (by decide) (by decide) (by decide) (by decide) (by decide) (by decide)
    (by decide) (by decide)

example : getNextTierCombos tree1 "root" = ["a"] := by decide
example : getNextTierCombos tree1 "a" = ["ab"] := by decide
example : getNextTierCombos tree1 "ab" = ["abc"] := by decide
example : getNextTierCombos tree1 "abc" = [] := by decide
example : getNextTierCombos tree1 "A" = [] := by decide
example : isValidWord dict1 "cat" "a" [] = ⟨true, ""⟩ := by decide
example : isValidWord dict1 "cat" "a" ["Cat"] = ⟨true, ""⟩ := by decide
example : isValidWord dict1 "cat" "a" ["cat"] =
    ⟨false, "cat has already been used!"⟩ := by decide

end GuessBack
